import Mathlib

/-!
Shallow embedding of the robusta value-conversion core (`src/convert/*.rs` and
`build.rs`): a JNI-style foreign heap, the `JavaValue` boxing layer, and the
composite conversion adapters (Option, Result, Vec, tuples), with theorems
about the properties the adapters are supposed to satisfy.

The foreign runtime is modelled as an explicit heap of objects addressed by
handles; JNI calls become state-passing functions on that heap.  Rust panics
(`unwrap`, `unreachable!`) are modelled by the `Outcome.panic` constructor and
structured `jni::errors::Error` values by `Outcome.err`.
-/

/-- A foreign object handle: the null reference or a reference into the heap.
Mirrors `jni::objects::JObject` (which may hold a null pointer). -/
inductive JHandle where
  | null : JHandle
  | ref (n : Nat) : JHandle
deriving DecidableEq

/-- The data stored in one foreign heap object.  Each constructor corresponds
to one class of objects the conversion core manipulates:
boxed primitives (`java.lang.Boolean` / `Character` / `Integer`),
strings, the generated `Result` class (byte field `tag`, `Object` field
`value`), `java.util.ArrayList` (remembering the constructor's capacity
argument and the element handles in order), `boolean[]` arrays, and the
`Tuple0` singleton instance. -/
inductive JObjData where
  | boxedBool (b : Nat) : JObjData
  | boxedChar (c : Nat) : JObjData
  | boxedInt (i : Int) : JObjData
  | strObj (s : String) : JObjData
  | resultObj (tag : Int) (value : JHandle) : JObjData
  | listObj (cap : Int) (elems : List JHandle) : JObjData
  | boolArray (elems : List Nat) : JObjData
  | unitObj : JObjData
deriving DecidableEq

/-- The state of the foreign runtime visible to the conversion core: the
object heap, plus the value of the static `INSTANCE` field of the `Tuple0`
class (read by the arity-0 tuple adapter). -/
structure JEnv where
  heap : List JObjData
  tuple0Instance : JHandle
deriving DecidableEq

/-- Allocate a fresh object on the heap and return its (non-null) handle. -/
def pushObj (env : JEnv) (o : JObjData) : JEnv × JHandle :=
  ({ env with heap := env.heap ++ [o] }, JHandle.ref env.heap.length)

/-- Look up the object a handle refers to (`none` for null or dangling). -/
def deref (env : JEnv) (h : JHandle) : Option JObjData :=
  match h with
  | JHandle.null => none
  | JHandle.ref n => env.heap[n]?

/-- The `jvalue` union restricted to the kinds the modelled adapters use:
`jboolean` (a `u8`), `jchar` (a `u16`), `jint` (an `i32`) and object handles. -/
inductive JVal where
  | jbool (n : Nat) : JVal
  | jchar (n : Nat) : JVal
  | jint (i : Int) : JVal
  | jobj (h : JHandle) : JVal
deriving DecidableEq

/-- The result of running a conversion: a value, a structured
`jni::errors::Error` (fallible family), or a Rust panic
(`unwrap` / `unreachable!` in the infallible family). -/
inductive Outcome (α : Type) where
  | ok (a : α) : Outcome α
  | err (e : String) : Outcome α
  | panic : Outcome α
deriving DecidableEq

/-- `JavaValue::autobox` (macro `jvalue_types!` in `convert/mod.rs`): a
primitive is boxed through the matching `valueOf` factory, yielding a fresh
object; `JObject::autobox` is the identity on the handle. -/
def autobox (env : JEnv) (v : JVal) : JEnv × JHandle :=
  match v with
  | JVal.jbool n => pushObj env (JObjData.boxedBool n)
  | JVal.jchar n => pushObj env (JObjData.boxedChar n)
  | JVal.jint i => pushObj env (JObjData.boxedInt i)
  | JVal.jobj h => (env, h)

/-- `JavaValue::unbox` for `jboolean`: call `booleanValue` on the referenced
object; any other object (or null) makes the `unwrap` panic. -/
def unbox_jbool (env : JEnv) (h : JHandle) : Outcome JVal :=
  match deref env h with
  | some (JObjData.boxedBool n) => Outcome.ok (JVal.jbool n)
  | _ => Outcome.panic

/-- `JavaValue::unbox` for `jchar` (`charValue`). -/
def unbox_jchar (env : JEnv) (h : JHandle) : Outcome JVal :=
  match deref env h with
  | some (JObjData.boxedChar n) => Outcome.ok (JVal.jchar n)
  | _ => Outcome.panic

/-- `JavaValue::unbox` for `jint` (`intValue`). -/
def unbox_jint (env : JEnv) (h : JHandle) : Outcome JVal :=
  match deref env h with
  | some (JObjData.boxedInt i) => Outcome.ok (JVal.jint i)
  | _ => Outcome.panic

/-- `IntoJavaValue::into` for `bool` (`convert/unchecked.rs`):
`if self { 1 } else { 0 }` as a `jboolean`. -/
def bool_into_java (b : Bool) : Nat :=
  if b then 1 else 0

/-- `FromJavaValue::from` for `bool` (`convert/unchecked.rs`): `s == 1`. -/
def bool_from_java (s : Nat) : Bool :=
  s == 1

/-- `IntoJavaValue::into` for `char` (`convert/unchecked.rs`):
`self as jchar`, i.e. the code point truncated to 16 bits. -/
def char_into_java (c : Nat) : Nat :=
  c % 65536

/-- `FromJavaValue::from` for `char` (`convert/unchecked.rs`):
`decode_utf16` of the single unit, then two `unwrap`s; a lone surrogate unit
makes `decode_utf16` yield `Err`, so the `unwrap` panics. -/
def char_from_java (s : Nat) : Outcome Nat :=
  if 55296 ≤ s ∧ s < 57344 then Outcome.panic else Outcome.ok s

/-- A Rust `char`: a Unicode scalar value (code point that is not a
surrogate). -/
def validRustChar (c : Nat) : Prop :=
  c < 1114112 ∧ ¬(55296 ≤ c ∧ c < 57344)

instance (c : Nat) : Decidable (validRustChar c) := by
  unfold validRustChar; infer_instance

/-- `IntoJavaValue::into` for `String` (`convert/unchecked.rs`):
`env.new_string(self)` allocates a fresh foreign string. -/
def string_into_java (env : JEnv) (s : String) : JEnv × JHandle :=
  pushObj env (JObjData.strObj s)

/-- `FromJavaValue::from` for `String` (`convert/unchecked.rs`):
`env.get_string(s).unwrap()`; a non-string handle makes the `unwrap` panic. -/
def string_from_java (env : JEnv) (h : JHandle) : Outcome String :=
  match deref env h with
  | some (JObjData.strObj s) => Outcome.ok s
  | _ => Outcome.panic

/-- A conversion-protocol bundle for an element type `α`: the four operations
of `IntoJavaValue` / `FromJavaValue` / `TryIntoJavaValue` / `TryFromJavaValue`
together with `unbox` of the associated `Source` type.  This plays the role
of the trait bounds of the generic composite adapters.

The fallible operations (`tryIntoJ` / `tryFromJ`) of the primitive and
`String` instances are *Modelled from the spec:* the file `convert/safe.rs`
holding the fallible family's primitive and string impls is not part of the
sources; per §4.4 of the spec they mirror the infallible family but surface
structured errors instead of panicking. -/
structure Conv (α : Type) where
  intoJ : JEnv → α → JEnv × JVal
  fromJ : JEnv → JVal → Outcome α
  unboxJ : JEnv → JHandle → Outcome JVal
  tryIntoJ : JEnv → α → JEnv × Outcome JVal
  tryFromJ : JEnv → JVal → Outcome α

/-- The conversion bundle for `bool` (`convert/unchecked.rs`; fallible
operations modelled from the spec, see `Conv`). -/
def conv_bool : Conv Bool where
  intoJ := fun env b => (env, JVal.jbool (bool_into_java b))
  fromJ := fun _ v =>
    match v with
    | JVal.jbool n => Outcome.ok (bool_from_java n)
    | _ => Outcome.panic
  unboxJ := unbox_jbool
  tryIntoJ := fun env b => (env, Outcome.ok (JVal.jbool (bool_into_java b)))
  tryFromJ := fun _ v =>
    match v with
    | JVal.jbool n => Outcome.ok (bool_from_java n)
    | _ => Outcome.err "WrongJValueType: bool"

/-- The conversion bundle for `i32`: the blanket identity impls of
`convert/unchecked.rs` (`jint` is already a `JavaValue`; fallible operations
modelled from the spec, see `Conv`). -/
def conv_int : Conv Int where
  intoJ := fun env i => (env, JVal.jint i)
  fromJ := fun _ v =>
    match v with
    | JVal.jint i => Outcome.ok i
    | _ => Outcome.panic
  unboxJ := unbox_jint
  tryIntoJ := fun env i => (env, Outcome.ok (JVal.jint i))
  tryFromJ := fun _ v =>
    match v with
    | JVal.jint i => Outcome.ok i
    | _ => Outcome.err "WrongJValueType: int"

/-- The conversion bundle for `String` (`convert/unchecked.rs`;
`JString::unbox` reinterprets the handle, so `unboxJ` is the identity;
fallible operations modelled from the spec, see `Conv`). -/
def conv_string : Conv String where
  intoJ := fun env s =>
    let p := string_into_java env s
    (p.1, JVal.jobj p.2)
  fromJ := fun env v =>
    match v with
    | JVal.jobj h => string_from_java env h
    | _ => Outcome.panic
  unboxJ := fun _ h => Outcome.ok (JVal.jobj h)
  tryIntoJ := fun env s =>
    let p := string_into_java env s
    (p.1, Outcome.ok (JVal.jobj p.2))
  tryFromJ := fun env v =>
    match v with
    | JVal.jobj h =>
      match deref env h with
      | some (JObjData.strObj s) => Outcome.ok s
      | _ => Outcome.err "WrongJValueType: string"
    | _ => Outcome.err "WrongJValueType: string"

/-- `IntoJavaValue::into` for `Option<T>` (`convert/unchecked.rs`):
`None` becomes `JObject::null()` — exactly the null handle, with no
allocation — and `Some(x)` becomes `into(x).autobox(env)`. -/
def option_into_java {α : Type} (c : Conv α) (env : JEnv) (o : Option α) :
    JEnv × JHandle :=
  match o with
  | none => (env, JHandle.null)
  | some x =>
    let p := c.intoJ env x
    autobox p.1 p.2

/-- `FromJavaValue::from` for `Option<T>` (`convert/unchecked.rs`):
a null handle decodes to `None`, anything else to
`Some(T::from(Source::unbox(s, env), env))`. -/
def option_from_java {α : Type} (c : Conv α) (env : JEnv) (h : JHandle) :
    Outcome (Option α) :=
  match h with
  | JHandle.null => Outcome.ok none
  | JHandle.ref n =>
    match c.unboxJ env (JHandle.ref n) with
    | Outcome.ok v =>
      match c.fromJ env v with
      | Outcome.ok a => Outcome.ok (some a)
      | Outcome.err e => Outcome.err e
      | Outcome.panic => Outcome.panic
    | Outcome.err e => Outcome.err e
    | Outcome.panic => Outcome.panic

/-- The conversion bundle for `Option<T>` built from the one for `T`
(the target/source type is `JObject`, whose `unbox` is the identity). -/
def conv_option {α : Type} (c : Conv α) : Conv (Option α) where
  intoJ := fun env o =>
    let p := option_into_java c env o
    (p.1, JVal.jobj p.2)
  fromJ := fun env v =>
    match v with
    | JVal.jobj h => option_from_java c env h
    | _ => Outcome.panic
  unboxJ := fun _ h => Outcome.ok (JVal.jobj h)
  tryIntoJ := fun env o =>
    let p := option_into_java c env o
    (p.1, Outcome.ok (JVal.jobj p.2))
  tryFromJ := fun env v =>
    match v with
    | JVal.jobj h => option_from_java c env h
    | _ => Outcome.err "WrongJValueType: object"

/-- The native two-variant sum type, mirroring `core::result::Result<Ok, Err>`. -/
inductive RResult (α β : Type) where
  | ok (a : α) : RResult α β
  | err (b : β) : RResult α β
deriving DecidableEq

/-- `IntoJavaValue::into` for `Result<Ok, Err>` (`convert/result.rs`):
the payload is converted and autoboxed, then the cached 2-argument
constructor `(B, Ljava/lang/Object;)V` is invoked with tag `0i8` for `Ok`
and `1i8` for `Err`. -/
def result_into_java {α β : Type} (cok : Conv α) (cerr : Conv β)
    (env : JEnv) (r : RResult α β) : JEnv × JHandle :=
  match r with
  | RResult.ok a =>
    let p := cok.intoJ env a
    let q := autobox p.1 p.2
    pushObj q.1 (JObjData.resultObj 0 q.2)
  | RResult.err b =>
    let p := cerr.intoJ env b
    let q := autobox p.1 p.2
    pushObj q.1 (JObjData.resultObj 1 q.2)

/-- `FromJavaValue::from` for `Result<Ok, Err>` (`convert/result.rs`):
read the `tag` and `value` fields, then dispatch — tag 0 decodes the ok
branch, tag 1 the err branch, and any other tag hits `unreachable!()`,
i.e. panics. -/
def result_from_java {α β : Type} (cok : Conv α) (cerr : Conv β)
    (env : JEnv) (h : JHandle) : Outcome (RResult α β) :=
  match deref env h with
  | some (JObjData.resultObj tag value) =>
    if tag = 0 then
      match cok.unboxJ env value with
      | Outcome.ok v =>
        match cok.fromJ env v with
        | Outcome.ok a => Outcome.ok (RResult.ok a)
        | Outcome.err e => Outcome.err e
        | Outcome.panic => Outcome.panic
      | Outcome.err e => Outcome.err e
      | Outcome.panic => Outcome.panic
    else if tag = 1 then
      match cerr.unboxJ env value with
      | Outcome.ok v =>
        match cerr.fromJ env v with
        | Outcome.ok b => Outcome.ok (RResult.err b)
        | Outcome.err e => Outcome.err e
        | Outcome.panic => Outcome.panic
      | Outcome.err e => Outcome.err e
      | Outcome.panic => Outcome.panic
    else Outcome.panic
  | _ => Outcome.panic

/-- `TryIntoJavaValue::try_into` for `Result<Ok, Err>` (`convert/result.rs`):
like the infallible encode, but a failing payload conversion short-circuits
with `?`.  The tags are the same: `0i8` for `Ok`, `1i8` for `Err`. -/
def result_try_into_java {α β : Type} (cok : Conv α) (cerr : Conv β)
    (env : JEnv) (r : RResult α β) : JEnv × Outcome JHandle :=
  match r with
  | RResult.ok a =>
    let p := cok.tryIntoJ env a
    match p.2 with
    | Outcome.ok v =>
      let q := autobox p.1 v
      let w := pushObj q.1 (JObjData.resultObj 0 q.2)
      (w.1, Outcome.ok w.2)
    | Outcome.err e => (p.1, Outcome.err e)
    | Outcome.panic => (p.1, Outcome.panic)
  | RResult.err b =>
    let p := cerr.tryIntoJ env b
    match p.2 with
    | Outcome.ok v =>
      let q := autobox p.1 v
      let w := pushObj q.1 (JObjData.resultObj 1 q.2)
      (w.1, Outcome.ok w.2)
    | Outcome.err e => (p.1, Outcome.err e)
    | Outcome.panic => (p.1, Outcome.panic)

/-- `TryFromJavaValue::try_from` for `Result<Ok, Err>` (`convert/result.rs`):
field reads propagate errors with `?`, payload decoding uses the fallible
family — but an unexpected tag still hits `unreachable!()` and panics
(`_ => unreachable!()`), it is *not* returned as a structured error. -/
def result_try_from_java {α β : Type} (cok : Conv α) (cerr : Conv β)
    (env : JEnv) (h : JHandle) : Outcome (RResult α β) :=
  match deref env h with
  | some (JObjData.resultObj tag value) =>
    if tag = 0 then
      match cok.unboxJ env value with
      | Outcome.ok v =>
        match cok.tryFromJ env v with
        | Outcome.ok a => Outcome.ok (RResult.ok a)
        | Outcome.err e => Outcome.err e
        | Outcome.panic => Outcome.panic
      | Outcome.err e => Outcome.err e
      | Outcome.panic => Outcome.panic
    else if tag = 1 then
      match cerr.unboxJ env value with
      | Outcome.ok v =>
        match cerr.tryFromJ env v with
        | Outcome.ok b => Outcome.ok (RResult.err b)
        | Outcome.err e => Outcome.err e
        | Outcome.panic => Outcome.panic
      | Outcome.err e => Outcome.err e
      | Outcome.panic => Outcome.panic
    else Outcome.panic
  | _ => Outcome.err "field access failed"

/-- `JList::add` on the list object stored at heap index `i`
(used by the `Vec` encoder; the handle is known to refer to the freshly
allocated `ArrayList`). -/
def list_add (env : JEnv) (i : Nat) (el : JHandle) : JEnv :=
  match env.heap[i]? with
  | some (JObjData.listObj cap hs) =>
    { env with heap := env.heap.set i (JObjData.listObj cap (hs ++ [el])) }
  | _ => env

/-- The element loop of `IntoJavaValue::into` for `Vec<T>`
(`convert/unchecked.rs`): each element is converted, autoboxed and appended
to the list object at heap index `i`, in the original order. -/
def vec_into_aux {α : Type} (c : Conv α) (env : JEnv) (i : Nat) :
    List α → JEnv
  | [] => env
  | x :: rest =>
    let p := c.intoJ env x
    let q := autobox p.1 p.2
    vec_into_aux c (list_add q.1 i q.2) i rest

/-- The constructor argument of the `Vec` encoder: `self.len() as i32`,
i.e. the `usize` length truncated to 32 bits and reinterpreted as a signed
two's-complement value. -/
def int32_of_usize (n : Nat) : Int :=
  if n % 4294967296 < 2147483648 then Int.ofNat (n % 4294967296)
  else Int.ofNat (n % 4294967296) - 4294967296

/-- `IntoJavaValue::into` for `Vec<T>` (`convert/unchecked.rs`): allocate an
`ArrayList` via the cached 1-argument constructor `(I)V` with
`self.len() as i32` — the length wrapped to a signed 32-bit value — then
append every converted element in order.  When the wrapped capacity is
negative (length at least 2^31), the `ArrayList` constructor throws
`IllegalArgumentException` and the `.unwrap()` panics. -/
def vec_into_java {α : Type} (c : Conv α) (env : JEnv) (xs : List α) :
    JEnv × Outcome JHandle :=
  if int32_of_usize xs.length < 0 then
    (env, Outcome.panic)
  else
    (vec_into_aux c
        (pushObj env (JObjData.listObj (int32_of_usize xs.length) [])).1
        env.heap.length xs,
      Outcome.ok
        (pushObj env (JObjData.listObj (int32_of_usize xs.length) [])).2)

/-- The iteration loop of `FromJavaValue::from` for `Vec<T>`
(`convert/unchecked.rs`): each element handle of the foreign list is unboxed
and converted, front to back. -/
def decode_elems {α : Type} (c : Conv α) (env : JEnv) :
    List JHandle → Outcome (List α)
  | [] => Outcome.ok []
  | eh :: rest =>
    match c.unboxJ env eh with
    | Outcome.ok v =>
      match c.fromJ env v with
      | Outcome.ok a =>
        match decode_elems c env rest with
        | Outcome.ok tl => Outcome.ok (a :: tl)
        | Outcome.err e => Outcome.err e
        | Outcome.panic => Outcome.panic
      | Outcome.err e => Outcome.err e
      | Outcome.panic => Outcome.panic
    | Outcome.err e => Outcome.err e
    | Outcome.panic => Outcome.panic

/-- `FromJavaValue::from` for `Vec<T>` (`convert/unchecked.rs`): iterate the
foreign list front to back and rebuild the native vector. -/
def vec_from_java {α : Type} (c : Conv α) (env : JEnv) (h : JHandle) :
    Outcome (List α) :=
  match deref env h with
  | some (JObjData.listObj _ hs) => decode_elems c env hs
  | _ => Outcome.panic

/-- `JavaValue::autobox` for `()` in `convert/mod.rs`:
`panic!("called JavaValue::autobox on unit value")` — it panics
unconditionally and never returns a handle. -/
def unit_autobox (_env : JEnv) : Outcome JHandle :=
  Outcome.panic

/-- `JavaValue::autobox` for `()` generated by `impl_tuple_conversion_tuple0!`
in `convert/tuple.rs` (tuple-family build configuration): read the cached
static field `INSTANCE` of the `Tuple0` class and return that handle. -/
def unit_autobox_tuple0 (env : JEnv) : JEnv × JHandle :=
  (env, env.tuple0Instance)

/-- `JavaValue::unbox` for `()` (identical in `convert/mod.rs` and
`convert/tuple.rs`): `fn unbox(_s, _env) {}` — both arguments are ignored
and the unit value is returned. -/
def unit_unbox (_s : JHandle) (_env : JEnv) : Unit :=
  ()

/-- `TupleConfig::get_tuple_sig` in `build.rs`:
`format!("{}{};", jni_prefix, dim)`. -/
def get_tuple_sig (p : String) (dim : Nat) : String :=
  p ++ Nat.repr dim ++ ";"

/-- Modelled from the spec: "a tuple's descriptor is `<prefix><arity>` for a
build-time configured prefix" — the descriptor exactly as the spec's words
describe it, for comparison with `get_tuple_sig`. -/
def tuple_descriptor_spec (p : String) (dim : Nat) : String :=
  p ++ Nat.repr dim

/-- `env.get_array_length` on a `jbooleanArray` handle (the `unwrap` panics
on anything that is not a boolean array). -/
def get_array_length (env : JEnv) (h : JHandle) : Outcome Nat :=
  match deref env h with
  | some (JObjData.boolArray elems) => Outcome.ok elems.length
  | _ => Outcome.panic

/-- `env.get_boolean_array_region(s, 0, &mut buf)`: copy `bufLen` elements
starting at `start` into the destination buffer; out-of-bounds is a foreign
`ArrayIndexOutOfBoundsException`. -/
def get_boolean_array_region (env : JEnv) (h : JHandle) (start bufLen : Nat) :
    Outcome (List Nat) :=
  match deref env h with
  | some (JObjData.boolArray elems) =>
    if start + bufLen ≤ elems.length then
      Outcome.ok ((elems.drop start).take bufLen)
    else Outcome.err "ArrayIndexOutOfBoundsException"
  | _ => Outcome.panic

/-- `Vec::with_capacity(n).into_boxed_slice()` in
`FromJavaValue for Box<[bool]>`: `with_capacity` reserves capacity but the
vector's *length* is 0, and `into_boxed_slice` drops the excess capacity, so
the resulting slice is empty whatever `n` is. -/
def with_capacity_boxed_slice (_n : Nat) : List Nat :=
  []

/-- `FromJavaValue::from` for `Box<[bool]>` (`convert/unchecked.rs`): read
the array length, create the destination buffer with
`Vec::with_capacity(len).into_boxed_slice()`, read the region into it
(its length — zero — many elements), then convert each buffer element. -/
def bool_slice_from_java (env : JEnv) (h : JHandle) : Outcome (List Bool) :=
  match get_array_length env h with
  | Outcome.ok len =>
    let buf := with_capacity_boxed_slice len
    match get_boolean_array_region env h 0 buf.length with
    | Outcome.ok buf2 => Outcome.ok (buf2.map (fun b => bool_from_java b))
    | _ => Outcome.panic
  | _ => Outcome.panic

/-! ## Heap lemmas -/

/-- Dereferencing the handle returned by an allocation yields the allocated
object. -/
theorem deref_pushObj (env : JEnv) (o : JObjData) :
    deref (pushObj env o).1 (pushObj env o).2 = some o := by
  simp [deref, pushObj, List.getElem?_concat_length]

/-- Allocation does not disturb existing objects. -/
theorem deref_pushObj_of_deref (env : JEnv) (o : JObjData) {h : JHandle}
    {d : JObjData} (hd : deref env h = some d) :
    deref (pushObj env o).1 h = some d := by
  cases h with
  | null => simp [deref] at hd
  | ref n =>
    simp only [deref] at hd ⊢
    obtain ⟨hlt, -⟩ := List.getElem?_eq_some.mp hd
    simp [pushObj, List.getElem?_append, hlt, hd]

/-! ## C2: primitive round-trips -/

/-- C2 (counterexample): the claim "for every Rust char c,
FromJavaValue::from(IntoJavaValue::into(c)) == c" is false: the emoji
U+1F600 (code point 128512) is a valid Rust char, but `self as jchar`
truncates it to 16 bits and it decodes to U+F600, not U+1F600. -/
theorem char_round_trip_fails_beyond_bmp :
    validRustChar 128512 ∧
      char_from_java (char_into_java 128512) ≠ Outcome.ok 128512 := by
  decide

/-- C2 (amended): bool round-trips for every value; char round-trips for
every Rust char whose code point fits in 16 bits (the basic multilingual
plane) — chars above U+FFFF are truncated by `as jchar` and do not
round-trip; and for the boxed primitive kinds handled by `jvalue_types!`,
unboxing the autoboxed value returns the original value. -/
theorem primitive_round_trip :
    (∀ b : Bool, bool_from_java (bool_into_java b) = b) ∧
    (∀ c : Nat, validRustChar c → c < 65536 →
      char_from_java (char_into_java c) = Outcome.ok c) ∧
    (∀ (env : JEnv) (n : Nat),
      unbox_jbool (autobox env (JVal.jbool n)).1 (autobox env (JVal.jbool n)).2
        = Outcome.ok (JVal.jbool n)) ∧
    (∀ (env : JEnv) (n : Nat),
      unbox_jchar (autobox env (JVal.jchar n)).1 (autobox env (JVal.jchar n)).2
        = Outcome.ok (JVal.jchar n)) ∧
    (∀ (env : JEnv) (i : Int),
      unbox_jint (autobox env (JVal.jint i)).1 (autobox env (JVal.jint i)).2
        = Outcome.ok (JVal.jint i)) := by
  refine ⟨?_, ?_, ?_, ?_, ?_⟩
  · intro b; cases b <;> decide
  · intro c hv hlt
    have hmod : c % 65536 = c := Nat.mod_eq_of_lt hlt
    simp only [char_into_java, char_from_java, hmod]
    rw [if_neg hv.2]
  · intro env n; simp [autobox, unbox_jbool, deref_pushObj]
  · intro env n; simp [autobox, unbox_jchar, deref_pushObj]
  · intro env i; simp [autobox, unbox_jint, deref_pushObj]

/-- C2 (witness): the round-trip theorem applied at the concrete char 'A'
(code point 65). -/
theorem primitive_round_trip_witness :
    validRustChar 65 ∧ 65 < 65536 ∧
      char_from_java (char_into_java 65) = Outcome.ok 65 :=
  ⟨by decide, by decide, primitive_round_trip.2.1 65 (by decide) (by decide)⟩

/-! ## C7: arity-0 tuple decode -/

/-- C7: `JavaValue::unbox` for `()` ignores its input entirely: every handle
(null, the cached singleton, or any foreign-supplied handle) decodes to the
unit value, and any two handles decode identically. -/
theorem unit_unbox_ignores_input :
    ∀ (env : JEnv) (s : JHandle),
      unit_unbox s env = () ∧ ∀ s' : JHandle, unit_unbox s env = unit_unbox s' env :=
  fun _ _ => ⟨rfl, fun _ => rfl⟩

/-! ## C4: autobox on the unit value -/

/-- C4 (counterexample): the claim "calling autobox on the unit value ()
fails loudly" is false for the tuple-family impl generated by
`impl_tuple_conversion_tuple0!`: with the `Tuple0.INSTANCE` static field
holding handle `ref 0`, autobox of `()` succeeds and returns that non-null
handle instead of failing. -/
theorem unit_autobox_tuple0_succeeds :
    unit_autobox_tuple0 ⟨[JObjData.unitObj], JHandle.ref 0⟩
        = (⟨[JObjData.unitObj], JHandle.ref 0⟩, JHandle.ref 0) ∧
      JHandle.ref 0 ≠ JHandle.null := by
  exact ⟨rfl, by decide⟩

/-- C4 (amended): the base `JavaValue` impl for `()` in `convert/mod.rs`
panics on autobox, failing loudly and never returning a handle; but the
arity-0 tuple adapter's impl in `convert/tuple.rs` (enabled by the
build-time tuple configuration) instead returns the cached `Tuple0.INSTANCE`
singleton handle without failing. -/
theorem unit_autobox_behaviour :
    (∀ env : JEnv, unit_autobox env = Outcome.panic) ∧
    (∀ env : JEnv, unit_autobox_tuple0 env = (env, env.tuple0Instance)) :=
  ⟨fun _ => rfl, fun _ => rfl⟩

/-! ## C8: tuple descriptor -/

/-- C8 (counterexample): the descriptor is not exactly `<prefix><arity>`:
with the default prefix "LTuple" and arity 2, `get_tuple_sig` produces
"LTuple2;" (with a terminating semicolon), not "LTuple2". -/
theorem tuple_sig_has_semicolon :
    get_tuple_sig "LTuple" 2 = "LTuple2;" ∧
      get_tuple_sig "LTuple" 2 ≠ "LTuple" ++ "2" := by
  decide

/-- C8 (amended): for every configured prefix and arity, the tuple type's
descriptor is the prefix followed by the decimal arity followed by a
terminating semicolon: `<prefix><arity>;`. -/
theorem tuple_sig_correct :
    ∀ (p : String) (dim : Nat),
      get_tuple_sig p dim = tuple_descriptor_spec p dim ++ ";" :=
  fun _ _ => rfl

/-! ## C1: decoding an out-of-range result tag -/

/-- C1: decoding a sum-result handle whose `tag` byte is 2 hits
`unreachable!()` and panics in *both* the infallible (`from`) and fallible
(`try_from`) decoders — the fallible decoder does not return the structured
InvariantViolation-class error the spec requires. -/
theorem result_decode_tag2_panics :
    result_from_java conv_int conv_string
        ⟨[JObjData.resultObj 2 JHandle.null], JHandle.null⟩ (JHandle.ref 0)
        = Outcome.panic ∧
      result_try_from_java conv_int conv_string
        ⟨[JObjData.resultObj 2 JHandle.null], JHandle.null⟩ (JHandle.ref 0)
        = Outcome.panic := by
  exact ⟨rfl, rfl⟩

/-! ## C10: infallible decode of a boolean array -/

/-- C10: `FromJavaValue::from` for `Box<[bool]>` returns the empty slice for
every boolean-array handle, whatever the array's length, because the
destination buffer produced by `Vec::with_capacity(len).into_boxed_slice()`
has length 0, so the region read fills zero elements. -/
theorem bool_slice_decode_always_empty :
    ∀ (env : JEnv) (h : JHandle) (elems : List Nat),
      deref env h = some (JObjData.boolArray elems) →
      bool_slice_from_java env h = Outcome.ok [] := by
  intro env h elems hd
  simp [bool_slice_from_java, get_array_length, get_boolean_array_region,
    with_capacity_boxed_slice, hd]

/-- C10 (witness): decoding a three-element array `[true, false, true]`
returns the empty slice. -/
theorem bool_slice_decode_always_empty_witness :
    deref ⟨[JObjData.boolArray [1, 0, 1]], JHandle.null⟩ (JHandle.ref 0)
        = some (JObjData.boolArray [1, 0, 1]) ∧
      bool_slice_from_java ⟨[JObjData.boolArray [1, 0, 1]], JHandle.null⟩
        (JHandle.ref 0) = Outcome.ok [] :=
  ⟨rfl, bool_slice_decode_always_empty _ _ [1, 0, 1] rfl⟩

/-! ## C3: Option adapter -/

/-- C3 (counterexample): the claim "for any convertible x (including when
x's own type is itself a composite such as another Option), decoding the
encoding of Some(x) yields Some(x)" is false for x = None of a nested
Option type: `JObject::autobox` is the identity, so `Some(None)` encodes to
the null handle and decodes back to `None`, not `Some(None)`. -/
theorem nested_option_round_trip_fails :
    option_from_java (conv_option conv_bool)
        (option_into_java (conv_option conv_bool) ⟨[], JHandle.null⟩ (some none)).1
        (option_into_java (conv_option conv_bool) ⟨[], JHandle.null⟩ (some none)).2
      = Outcome.ok none ∧
      (Outcome.ok (none : Option (Option Bool))
        ≠ Outcome.ok (some (none : Option Bool))) := by
  exact ⟨rfl, by decide⟩

/-- C3 (amended): encoding `None` yields exactly the null handle (with no
allocation) and decodes back to `None`; for an element type whose encoding
autoboxes to a non-null handle — such as `bool` — `Some(x)` round-trips;
but for a nested Option element, `Some(None)` encodes to the null handle
and decodes to `None`, so composites with null encodings do not
round-trip. -/
theorem option_adapter_round_trip :
    (∀ env : JEnv, option_into_java conv_bool env none = (env, JHandle.null)) ∧
    (∀ env : JEnv,
      option_from_java conv_bool
        (option_into_java conv_bool env none).1
        (option_into_java conv_bool env none).2 = Outcome.ok none) ∧
    (∀ (env : JEnv) (b : Bool),
      option_from_java conv_bool
        (option_into_java conv_bool env (some b)).1
        (option_into_java conv_bool env (some b)).2 = Outcome.ok (some b)) ∧
    (∀ env : JEnv,
      option_into_java (conv_option conv_bool) env (some none)
        = (env, JHandle.null)) ∧
    (∀ env : JEnv,
      option_from_java (conv_option conv_bool) env JHandle.null
        = Outcome.ok none) := by
  refine ⟨fun _ => rfl, fun _ => rfl, ?_, fun _ => rfl, fun _ => rfl⟩
  intro env b
  cases b <;>
    simp [option_into_java, option_from_java, conv_bool, autobox, pushObj,
      deref, bool_into_java, bool_from_java, unbox_jbool,
      List.getElem?_concat_length]

/-! ## C5: Result adapter tags and round-trip -/

/-- C5: in both conversion families the sum-result encoder writes tag byte 0
for `Ok` and tag byte 1 for `Err`, and decoding the encoding of `Ok v`
(resp. `Err e`) returns `Ok v` (resp. `Err e`) — in particular for `Ok 5`
and `Err "boom"`. -/
theorem result_adapter_tags_and_round_trip :
    (∀ (env : JEnv) (v : Int),
      deref (result_into_java conv_int conv_string env (RResult.ok v)).1
          (result_into_java conv_int conv_string env (RResult.ok v)).2
        = some (JObjData.resultObj 0 (JHandle.ref env.heap.length))) ∧
    (∀ (env : JEnv) (e : String),
      deref (result_into_java conv_int conv_string env (RResult.err e)).1
          (result_into_java conv_int conv_string env (RResult.err e)).2
        = some (JObjData.resultObj 1 (JHandle.ref env.heap.length))) ∧
    (∀ (env : JEnv) (v : Int),
      (result_try_into_java conv_int conv_string env (RResult.ok v)).2
          = Outcome.ok (JHandle.ref (env.heap.length + 1)) ∧
        deref (result_try_into_java conv_int conv_string env (RResult.ok v)).1
          (JHandle.ref (env.heap.length + 1))
          = some (JObjData.resultObj 0 (JHandle.ref env.heap.length))) ∧
    (∀ (env : JEnv) (e : String),
      (result_try_into_java conv_int conv_string env (RResult.err e)).2
          = Outcome.ok (JHandle.ref (env.heap.length + 1)) ∧
        deref (result_try_into_java conv_int conv_string env (RResult.err e)).1
          (JHandle.ref (env.heap.length + 1))
          = some (JObjData.resultObj 1 (JHandle.ref env.heap.length))) ∧
    (∀ (env : JEnv) (v : Int),
      result_from_java conv_int conv_string
        (result_into_java conv_int conv_string env (RResult.ok v)).1
        (result_into_java conv_int conv_string env (RResult.ok v)).2
        = Outcome.ok (RResult.ok v)) ∧
    (∀ (env : JEnv) (e : String),
      result_from_java conv_int conv_string
        (result_into_java conv_int conv_string env (RResult.err e)).1
        (result_into_java conv_int conv_string env (RResult.err e)).2
        = Outcome.ok (RResult.err e)) ∧
    (∀ (env : JEnv) (v : Int),
      result_try_from_java conv_int conv_string
        (result_try_into_java conv_int conv_string env (RResult.ok v)).1
        (JHandle.ref (env.heap.length + 1))
        = Outcome.ok (RResult.ok v)) ∧
    (∀ (env : JEnv) (e : String),
      result_try_from_java conv_int conv_string
        (result_try_into_java conv_int conv_string env (RResult.err e)).1
        (JHandle.ref (env.heap.length + 1))
        = Outcome.ok (RResult.err e)) := by
  have hok : ∀ (env : JEnv) (v : Int),
      result_into_java conv_int conv_string env (RResult.ok v)
        = pushObj (pushObj env (JObjData.boxedInt v)).1
            (JObjData.resultObj 0 (JHandle.ref env.heap.length)) :=
    fun _ _ => rfl
  have herr : ∀ (env : JEnv) (e : String),
      result_into_java conv_int conv_string env (RResult.err e)
        = pushObj (pushObj env (JObjData.strObj e)).1
            (JObjData.resultObj 1 (JHandle.ref env.heap.length)) :=
    fun _ _ => rfl
  have htok : ∀ (env : JEnv) (v : Int),
      result_try_into_java conv_int conv_string env (RResult.ok v)
        = ((pushObj (pushObj env (JObjData.boxedInt v)).1
              (JObjData.resultObj 0 (JHandle.ref env.heap.length))).1,
           Outcome.ok (pushObj (pushObj env (JObjData.boxedInt v)).1
              (JObjData.resultObj 0 (JHandle.ref env.heap.length))).2) :=
    fun _ _ => rfl
  have hterr : ∀ (env : JEnv) (e : String),
      result_try_into_java conv_int conv_string env (RResult.err e)
        = ((pushObj (pushObj env (JObjData.strObj e)).1
              (JObjData.resultObj 1 (JHandle.ref env.heap.length))).1,
           Outcome.ok (pushObj (pushObj env (JObjData.strObj e)).1
              (JObjData.resultObj 1 (JHandle.ref env.heap.length))).2) :=
    fun _ _ => rfl
  have hlen : ∀ (env : JEnv) (o : JObjData),
      (pushObj (pushObj env o).1 o).2 = JHandle.ref (env.heap.length + 1) := by
    intro env o; simp [pushObj]
  have hinner : ∀ (env : JEnv) (o : JObjData) (r : JObjData),
      deref (pushObj (pushObj env o).1 r).1 (JHandle.ref env.heap.length)
        = some o := by
    intro env o r
    exact deref_pushObj_of_deref _ r (deref_pushObj env o)
  refine ⟨?_, ?_, ?_, ?_, ?_, ?_, ?_, ?_⟩
  · intro env v; rw [hok]; exact deref_pushObj _ _
  · intro env e; rw [herr]; exact deref_pushObj _ _
  · intro env v
    constructor
    · rw [htok]; simp [pushObj]
    · rw [htok]
      have := deref_pushObj (pushObj env (JObjData.boxedInt v)).1
        (JObjData.resultObj 0 (JHandle.ref env.heap.length))
      simpa [pushObj] using this
  · intro env e
    constructor
    · rw [hterr]; simp [pushObj]
    · rw [hterr]
      have := deref_pushObj (pushObj env (JObjData.strObj e)).1
        (JObjData.resultObj 1 (JHandle.ref env.heap.length))
      simpa [pushObj] using this
  · intro env v
    rw [hok]
    have hd := deref_pushObj (pushObj env (JObjData.boxedInt v)).1
      (JObjData.resultObj 0 (JHandle.ref env.heap.length))
    have hv := hinner env (JObjData.boxedInt v)
      (JObjData.resultObj 0 (JHandle.ref env.heap.length))
    simp [result_from_java, hd, conv_int, unbox_jint, hv]
  · intro env e
    rw [herr]
    have hd := deref_pushObj (pushObj env (JObjData.strObj e)).1
      (JObjData.resultObj 1 (JHandle.ref env.heap.length))
    have hv := hinner env (JObjData.strObj e)
      (JObjData.resultObj 1 (JHandle.ref env.heap.length))
    simp [result_from_java, hd, conv_string, string_from_java, hv]
  · intro env v
    rw [htok]
    have hd := deref_pushObj (pushObj env (JObjData.boxedInt v)).1
      (JObjData.resultObj 0 (JHandle.ref env.heap.length))
    have hv := hinner env (JObjData.boxedInt v)
      (JObjData.resultObj 0 (JHandle.ref env.heap.length))
    have h2 : (pushObj (pushObj env (JObjData.boxedInt v)).1
        (JObjData.resultObj 0 (JHandle.ref env.heap.length))).2
        = JHandle.ref (env.heap.length + 1) := by simp [pushObj]
    rw [← h2]
    simp [result_try_from_java, hd, conv_int, unbox_jint, hv]
  · intro env e
    rw [hterr]
    have hd := deref_pushObj (pushObj env (JObjData.strObj e)).1
      (JObjData.resultObj 1 (JHandle.ref env.heap.length))
    have hv := hinner env (JObjData.strObj e)
      (JObjData.resultObj 1 (JHandle.ref env.heap.length))
    have h2 : (pushObj (pushObj env (JObjData.strObj e)).1
        (JObjData.resultObj 1 (JHandle.ref env.heap.length))).2
        = JHandle.ref (env.heap.length + 1) := by simp [pushObj]
    rw [← h2]
    simp [result_try_from_java, hd, conv_string, hv]

/-! ## C6: Vec adapter -/

/-- Decoding a list of element handles yields as many values as handles. -/
theorem decode_elems_length {α : Type} (c : Conv α) (env : JEnv) :
    ∀ (hs : List JHandle) (l : List α),
      decode_elems c env hs = Outcome.ok l → hs.length = l.length := by
  intro hs
  induction hs with
  | nil =>
    intro l hdec
    simp only [decode_elems] at hdec
    cases hdec
    rfl
  | cons eh rest ih =>
    intro l hdec
    simp only [decode_elems] at hdec
    cases hcu : c.unboxJ env eh with
    | ok v =>
      simp only [hcu] at hdec
      cases hcf : c.fromJ env v with
      | ok a =>
        simp only [hcf] at hdec
        cases hcr : decode_elems c env rest with
        | ok tl =>
          simp only [hcr] at hdec
          cases hdec
          simp [ih tl hcr]
        | err e => simp only [hcr] at hdec; cases hdec
        | panic => simp only [hcr] at hdec; cases hdec
      | err e => simp only [hcf] at hdec; cases hdec
      | panic => simp only [hcf] at hdec; cases hdec
    | err e => simp only [hcu] at hdec; cases hdec
    | panic => simp only [hcu] at hdec; cases hdec

/-- Successful element decodings concatenate. -/
theorem decode_elems_append {α : Type} (c : Conv α) (env : JEnv) :
    ∀ (l1 l2 : List JHandle) (a1 a2 : List α),
      decode_elems c env l1 = Outcome.ok a1 →
      decode_elems c env l2 = Outcome.ok a2 →
      decode_elems c env (l1 ++ l2) = Outcome.ok (a1 ++ a2) := by
  intro l1
  induction l1 with
  | nil =>
    intro l2 a1 a2 h1 h2
    simp only [decode_elems] at h1
    cases h1
    simpa using h2
  | cons eh rest ih =>
    intro l2 a1 a2 h1 h2
    simp only [decode_elems, List.cons_append] at h1 ⊢
    cases hcu : c.unboxJ env eh with
    | ok v =>
      simp only [hcu] at h1 ⊢
      cases hcf : c.fromJ env v with
      | ok a =>
        simp only [hcf] at h1 ⊢
        cases hcr : decode_elems c env rest with
        | ok tl =>
          simp only [hcr] at h1
          cases h1
          have := ih l2 tl a2 hcr h2
          simp only [List.append_eq] at this ⊢
          simp [this]
        | err e => simp only [hcr] at h1; cases h1
        | panic => simp only [hcr] at h1; cases h1
      | err e => simp only [hcf] at h1; cases h1
      | panic => simp only [hcf] at h1; cases h1
    | err e => simp only [hcu] at h1; cases h1
    | panic => simp only [hcu] at h1; cases h1

/-- A successful `unbox_jint` pins down the handle and the heap entry. -/
theorem unbox_jint_eq_ok {env : JEnv} {h : JHandle} {v : JVal}
    (hu : unbox_jint env h = Outcome.ok v) :
    ∃ n j, h = JHandle.ref n ∧ env.heap[n]? = some (JObjData.boxedInt j) ∧
      v = JVal.jint j := by
  cases h with
  | null => simp [unbox_jint, deref] at hu
  | ref n =>
    cases hd : env.heap[n]? with
    | none => simp [unbox_jint, deref, hd] at hu
    | some o =>
      cases o <;> simp [unbox_jint, deref, hd] at hu
      case boxedInt j => exact ⟨n, j, rfl, hd, hu.symm⟩

/-- If successful decodings of the given handles are preserved pointwise by
an environment change, the whole decode is preserved. -/
theorem decode_elems_mono {α : Type} (c : Conv α) (env env' : JEnv)
    (hu : ∀ h v, c.unboxJ env h = Outcome.ok v → c.unboxJ env' h = Outcome.ok v)
    (hf : ∀ v a, c.fromJ env v = Outcome.ok a → c.fromJ env' v = Outcome.ok a) :
    ∀ (hs : List JHandle) (acc : List α),
      decode_elems c env hs = Outcome.ok acc →
      decode_elems c env' hs = Outcome.ok acc := by
  intro hs
  induction hs with
  | nil => intro acc h; simpa using h
  | cons eh rest ih =>
    intro acc hdec
    simp only [decode_elems] at hdec
    cases hcu : c.unboxJ env eh with
    | ok v =>
      simp only [hcu] at hdec
      cases hcf : c.fromJ env v with
      | ok a =>
        simp only [hcf] at hdec
        cases hcr : decode_elems c env rest with
        | ok tl =>
          simp only [hcr] at hdec
          cases hdec
          simp only [decode_elems, hu _ _ hcu, hf _ _ hcf, ih _ hcr]
        | err e => simp only [hcr] at hdec; cases hdec
        | panic => simp only [hcr] at hdec; cases hdec
      | err e => simp only [hcf] at hdec; cases hdec
      | panic => simp only [hcf] at hdec; cases hdec
    | err e => simp only [hcu] at hdec; cases hdec
    | panic => simp only [hcu] at hdec; cases hdec

/-- Invariant of the `Vec` encode loop (for `i32` elements): if the heap
slot `i` holds the list object and its current element handles decode to
`acc`, then after appending the encodings of `xs` the slot still holds the
same capacity, and the final element handles decode — against the final
environment — to `acc ++ xs`. -/
theorem vec_into_aux_spec :
    ∀ (xs : List Int) (env : JEnv) (i : Nat) (cap : Int) (hs : List JHandle)
      (acc : List Int),
      env.heap[i]? = some (JObjData.listObj cap hs) →
      decode_elems conv_int env hs = Outcome.ok acc →
      ∃ hs',
        (vec_into_aux conv_int env i xs).heap[i]?
            = some (JObjData.listObj cap hs') ∧
          decode_elems conv_int (vec_into_aux conv_int env i xs) hs'
            = Outcome.ok (acc ++ xs) := by
  intro xs
  induction xs with
  | nil =>
    intro env i cap hs acc hi hdec
    exact ⟨hs, hi, by simpa using hdec⟩
  | cons x rest ih =>
    intro env i cap hs acc hi hdec
    have hilt : i < env.heap.length := (List.getElem?_eq_some.mp hi).1
    have hstep : vec_into_aux conv_int env i (x :: rest)
        = vec_into_aux conv_int
            (list_add (pushObj env (JObjData.boxedInt x)).1 i
              (JHandle.ref env.heap.length)) i rest := rfl
    set E2 := (pushObj env (JObjData.boxedInt x)).1 with hE2
    have hi2 : E2.heap[i]? = some (JObjData.listObj cap hs) := by
      simp [hE2, pushObj, List.getElem?_append, hilt, hi]
    set E3 := list_add E2 i (JHandle.ref env.heap.length) with hE3d
    have hE3heap : E3.heap
        = E2.heap.set i
            (JObjData.listObj cap (hs ++ [JHandle.ref env.heap.length])) := by
      rw [hE3d]
      simp [list_add, hi2]
    have hilt2 : i < E2.heap.length := by
      simp only [hE2, pushObj, List.length_append, List.length_cons]
      omega
    have hi3 : E3.heap[i]?
        = some (JObjData.listObj cap (hs ++ [JHandle.ref env.heap.length])) := by
      rw [hE3heap]
      exact List.getElem?_set_eq_of_lt _ hilt2
    have hmono : ∀ h v, unbox_jint env h = Outcome.ok v →
        unbox_jint E3 h = Outcome.ok v := by
      intro h v huv
      obtain ⟨n, j, rfl, hd, rfl⟩ := unbox_jint_eq_ok huv
      have hne : i ≠ n := by
        intro hin
        rw [← hin, hi] at hd
        cases hd
      have hnlt : n < env.heap.length := (List.getElem?_eq_some.mp hd).1
      have hd3 : E3.heap[n]? = some (JObjData.boxedInt j) := by
        rw [hE3heap, List.getElem?_set_ne hne]
        simp [hE2, pushObj, List.getElem?_append, hnlt, hd]
      simp [unbox_jint, deref, hd3]
    have hdec3 : decode_elems conv_int E3 hs = Outcome.ok acc :=
      decode_elems_mono conv_int env E3 hmono (fun _ _ hfa => hfa) hs acc hdec
    have hd3new : E3.heap[env.heap.length]? = some (JObjData.boxedInt x) := by
      rw [hE3heap, List.getElem?_set_ne (Nat.ne_of_lt hilt)]
      simp [hE2, pushObj, List.getElem?_concat_length]
    have hnew : decode_elems conv_int E3 [JHandle.ref env.heap.length]
        = Outcome.ok [x] := by
      simp [decode_elems, conv_int, unbox_jint, deref, hd3new]
    have hcomb : decode_elems conv_int E3 (hs ++ [JHandle.ref env.heap.length])
        = Outcome.ok (acc ++ [x]) :=
      decode_elems_append conv_int E3 hs _ acc [x] hdec3 hnew
    obtain ⟨hs', H1, H2⟩ := ih E3 i cap _ (acc ++ [x]) hi3 hcomb
    refine ⟨hs', ?_, ?_⟩
    · rw [hstep]; exact H1
    · rw [hstep]
      simpa using H2

/-- C6 (counterexample): the claim "for every native ordered sequence (Vec),
encoding appends ... and decoding the encoding returns a sequence equal to
the original" is false for a vector of length 2^31: `self.len() as i32`
wraps to the negative capacity -2147483648, the `ArrayList` constructor
throws and the `.unwrap()` panics, so encoding produces no handle at all. -/
theorem vec_encode_wraps_and_panics :
    (vec_into_java conv_int ⟨[], JHandle.null⟩
          (List.replicate 2147483648 (0 : Int))).2
        = Outcome.panic ∧
      int32_of_usize (List.replicate 2147483648 (0 : Int)).length
        = -2147483648 := by
  have hlen : (List.replicate 2147483648 (0 : Int)).length = 2147483648 :=
    List.length_replicate _ _
  have hneg : int32_of_usize 2147483648 = -2147483648 := by decide
  constructor
  · simp only [vec_into_java, hlen, hneg]
    norm_num
  · rw [hlen, hneg]

/-- C6 (amended): for every initial environment and every native `Vec` of
`i32` values whose length is below 2^31 (so `self.len() as i32` does not
wrap negative), encoding succeeds, allocates a foreign list whose
constructor capacity is the vector's length and whose element handles are
appended in the original order, and decoding the encoding returns the
original vector — same order, same length (so `[1,2,3]` round-trips to
`[1,2,3]` and the empty vector to the empty vector); for a length of 2^31
or more whose wrapped value is negative, the encode panics. -/
theorem vec_round_trip (env : JEnv) (xs : List Int)
    (hlen : xs.length < 2147483648) :
    (vec_into_java conv_int env xs).2
        = Outcome.ok (JHandle.ref env.heap.length) ∧
    (∃ hs,
      deref (vec_into_java conv_int env xs).1 (JHandle.ref env.heap.length)
          = some (JObjData.listObj (Int.ofNat xs.length) hs) ∧
        hs.length = xs.length) ∧
      vec_from_java conv_int (vec_into_java conv_int env xs).1
        (JHandle.ref env.heap.length) = Outcome.ok xs := by
  have h32 : xs.length % 4294967296 = xs.length := Nat.mod_eq_of_lt (by omega)
  have hcap : int32_of_usize xs.length = Int.ofNat xs.length := by
    unfold int32_of_usize
    rw [h32, if_pos hlen]
  have hnneg : ¬ int32_of_usize xs.length < 0 := by
    rw [hcap, Int.ofNat_eq_natCast]
    omega
  have hv : vec_into_java conv_int env xs
      = (vec_into_aux conv_int
          (pushObj env (JObjData.listObj (Int.ofNat xs.length) [])).1
          env.heap.length xs,
         Outcome.ok (JHandle.ref env.heap.length)) := by
    simp only [vec_into_java]
    rw [if_neg hnneg, hcap]
    exact rfl
  have h0 : (pushObj env (JObjData.listObj (Int.ofNat xs.length) [])).1.heap[env.heap.length]?
      = some (JObjData.listObj (Int.ofNat xs.length) []) := by
    simp [pushObj, List.getElem?_concat_length]
  obtain ⟨hs', H1, H2⟩ := vec_into_aux_spec xs
    (pushObj env (JObjData.listObj (Int.ofNat xs.length) [])).1
    env.heap.length (Int.ofNat xs.length) [] [] h0 (by simp [decode_elems])
  have H2' : decode_elems conv_int
      (vec_into_aux conv_int
        (pushObj env (JObjData.listObj (Int.ofNat xs.length) [])).1
        env.heap.length xs) hs' = Outcome.ok xs := by simpa using H2
  refine ⟨?_, ⟨hs', ?_, ?_⟩, ?_⟩
  · rw [hv]
  · rw [hv]
    simpa [deref] using H1
  · exact decode_elems_length conv_int _ hs' xs H2'
  · rw [hv]
    simp only [vec_from_java, deref]
    rw [H1]
    exact H2'

/-- C6 (witness): the round-trip theorem applied to `[1, 2, 3]` in the
empty environment. -/
theorem vec_round_trip_witness :
    ([1, 2, 3] : List Int).length < 2147483648 ∧
      vec_from_java conv_int
        (vec_into_java conv_int ⟨[], JHandle.null⟩ [1, 2, 3]).1
        (JHandle.ref 0) = Outcome.ok [1, 2, 3] :=
  ⟨by decide,
    (vec_round_trip ⟨[], JHandle.null⟩ [1, 2, 3] (by decide)).2.2⟩
